import Mathlib

/-!
Verification development for the DXY scraping pipeline (`scrape_dxy.py`).

The Python source is shallowly embedded: floats are idealised as exact
rationals `ℚ` (reals `ℝ` where the code uses fractional powers), `None` /
raised-and-swallowed exceptions become `Option`, fallible operations become
`Except`, and the CSV file becomes a list of records.  Python's `round(x, n)`
(nearest, ties to even on binary floats) is idealised as round-to-nearest on
`ℚ`; the two conventions differ only at exact decimal ties, which are
artefacts of the float idealisation and are never relied upon below.
-/

/-! ## Shared numeric parsing (`parse_float_safe`, lines 35-45)

`parse_float_safe` strips commas (`s.replace(",", "")`), searches for the
first match of the pattern `\d+(?:\.\d+)?` and converts it with `float`.
The regex search is embedded as a left-to-right scanner over the character
list; `s.strip()` only trims edge whitespace and cannot change the first
match of the pattern, so it is a no-op for the embedded search.  The scanner
returns the token as (integer part, fractional digits value, fractional
digit count); `tokenToRat` is the embedding of `float` on such a token. -/

def isDigitC (c : Char) : Bool := 48 ≤ c.toNat && c.toNat ≤ 57

def digitsVal (ds : List Char) : ℕ := ds.foldl (fun a c => 10 * a + (c.toNat - 48)) 0

/-- The optional `(?:\.\d+)?` part of the pattern: a dot must be immediately
followed by at least one digit to contribute fractional digits. -/
def fracDigits : List Char → List Char
  | c :: cs => if c.toNat = 46 then cs.takeWhile isDigitC else []
  | [] => []

/-- First match of `\d+(?:\.\d+)?`: skip to the first digit, take the maximal
digit run, then an optional dot-plus-digits run. -/
def scanToken : List Char → Option (ℕ × ℕ × ℕ)
  | [] => none
  | c :: cs =>
    if isDigitC c then
      let intDs := (c :: cs).takeWhile isDigitC
      let fracDs := fracDigits ((c :: cs).dropWhile isDigitC)
      some (digitsVal intDs, digitsVal fracDs, fracDs.length)
    else scanToken cs

/-- Conversion `float` applied to a matched token. -/
def tokenToRat (t : ℕ × ℕ × ℕ) : ℚ := (t.1 : ℚ) + (t.2.1 : ℚ) / (10 : ℚ) ^ t.2.2

/-- Embedding of `parse_float_safe` (lines 35-45): remove every comma, find
the first decimal-number token, convert it to a number; no token gives
`none` (the code returns `None`, never an error). -/
def parse_float_safe (s : String) : Option ℚ :=
  (scanToken (s.data.filter (fun c => !(c.toNat = 44)))).map tokenToRat

/-- Python `round(x, 4)` idealised on `ℚ`. -/
def round4 (x : ℚ) : ℚ := ((round (x * 10000) : ℤ) : ℚ) / 10000

/-- Python `round(x, 6)` idealised on `ℚ`. -/
def round6 (x : ℚ) : ℚ := ((round (x * 1000000) : ℤ) : ℚ) / 1000000

theorem round4_idem (x : ℚ) : round4 (round4 x) = round4 x := by
  unfold round4
  rw [div_mul_cancel₀ _ (by norm_num : (10000 : ℚ) ≠ 0), round_intCast]

/-! ## Extraction phase of `scrape_cnbc_once` (lines 209-244)

The three probes themselves touch the live page, so their raw outcomes are
the phase's inputs:
* `selTexts` — for each selector of `strict_selectors`, in order, the inner
  text of the first matching element (`none` when the locator finds nothing
  or raises, which the code swallows);
* `captured` — the values appended by the `on_response` handler, in arrival
  order (each is a result of `extract_dxy_from_json_text_strict`);
* `htmlRes` — the result of `extract_dxy_from_html_strict(page.content())`.
The decision logic below is the literal control flow of lines 217-244. -/

/-- Loop `for sel in strict_selectors` (lines 217-227): parse each selector
text in order, return the first value inside `[90, 110]` rounded to 4
places, else fall through. -/
def selectorScan : List (Option String) → Option ℚ
  | [] => none
  | none :: rest => selectorScan rest
  | some txt :: rest =>
    match parse_float_safe txt with
    | none => selectorScan rest
    | some v => if 90 ≤ v ∧ v ≤ 110 then some (round4 v) else selectorScan rest

/-- Loop `for v in reversed(captured_prices)` (lines 229-233): the most
recently captured in-range value wins. -/
def capturedScan (captured : List ℚ) : Option ℚ :=
  (captured.reverse.find? (fun v => decide (90 ≤ v) && decide (v ≤ 110))).map round4

/-- Final gate on the HTML-context extraction result (lines 235-240). -/
def htmlGate : Option ℚ → Option ℚ
  | none => none
  | some v => if 90 ≤ v ∧ v ≤ 110 then some (round4 v) else none

/-- Embedding of the candidate-selection phase of `scrape_cnbc_once`
(lines 209-244): strict DOM selectors first, then captured background
responses (most recent first), then the strict HTML fallback; `none` models
the final `raise RuntimeError`. -/
def scrape_cnbc_once_extract (selTexts : List (Option String)) (captured : List ℚ)
    (htmlRes : Option ℚ) : Option ℚ :=
  match selectorScan selTexts with
  | some v => some v
  | none =>
    match capturedScan captured with
    | some v => some v
    | none => htmlGate htmlRes

/-- The same phase with the strategy order asserted by the specification:
element lookup, then the context-anchored text search, and the intercepted
background responses consulted last.  Kept separate from
`scrape_cnbc_once_extract` so the two orders can be compared. -/
def specOrderedExtract (selTexts : List (Option String)) (captured : List ℚ)
    (htmlRes : Option ℚ) : Option ℚ :=
  match selectorScan selTexts with
  | some v => some v
  | none =>
    match htmlGate htmlRes with
    | some v => some v
    | none => capturedScan captured

/-! ## Synthetic fallback (`get_dxy_synthetic_from_fx`, lines 65-101)

The HTTP fetch is an external collaborator; the `rates` mapping from the
response body is the function's input (`none` models both an absent key and
a JSON `null`).  Fractional powers force the value side into `ℝ`. -/

def neededCurrencies : List String := ["EUR", "JPY", "GBP", "CAD", "SEK", "CHF"]

/-- The check `c not in rates or rates[c] in (None, 0)` (lines 78-80). -/
def missingRateCheck (rates : String → Option ℚ) : Bool :=
  neededCurrencies.any (fun c => (rates c).isNone || decide (rates c = some 0))

/-- Python `round(x, 4)` idealised on `ℝ`. -/
noncomputable def round4R (x : ℝ) : ℝ := ((round (x * 10000) : ℤ) : ℝ) / 10000

/-- Embedding of `get_dxy_synthetic_from_fx` (lines 65-101): raise
(`Except.error`) when a needed USD rate is absent or zero, else invert the
EUR and GBP rates and take the fixed-weight product, rounded to 4 places. -/
noncomputable def get_dxy_synthetic_from_fx (rates : String → Option ℚ) : Except String ℝ :=
  if missingRateCheck rates then .error "Missing USD rate"
  else
    let usd_eur : ℝ := (((rates "EUR").getD 0 : ℚ) : ℝ)
    let usd_jpy : ℝ := (((rates "JPY").getD 0 : ℚ) : ℝ)
    let usd_gbp : ℝ := (((rates "GBP").getD 0 : ℚ) : ℝ)
    let usd_cad : ℝ := (((rates "CAD").getD 0 : ℚ) : ℝ)
    let usd_sek : ℝ := (((rates "SEK").getD 0 : ℚ) : ℝ)
    let usd_chf : ℝ := (((rates "CHF").getD 0 : ℚ) : ℝ)
    let eur_usd : ℝ := 1 / usd_eur
    let gbp_usd : ℝ := 1 / usd_gbp
    .ok (round4R (50.14348112
      * eur_usd ^ (-0.576 : ℝ)
      * usd_jpy ^ (0.136 : ℝ)
      * gbp_usd ^ (-0.119 : ℝ)
      * usd_cad ^ (0.091 : ℝ)
      * usd_sek ^ (0.042 : ℝ)
      * usd_chf ^ (0.036 : ℝ)))

/-! ## Fetch orchestration (`scrape_cnbc_with_retry`, lines 247-270)

One round tries each (URL × profile) combination of `URLS × profiles` in a
fixed order.  A single page-load attempt is a network interaction, so its
outcome is supplied by an oracle `ℕ → ℕ → Except String ℚ` mapping (round,
combination index) to the attempt's result.  `retryLoop` threads `last_err`
exactly as lines 254-270 do, and records each `time.sleep(4 * r)` in the
returned trace; `Except.error` models the final `raise RuntimeError`. -/

def URLS : List String := ["https://www.cnbc.com/quotes/.DXY"]

def profileViewports : List (ℕ × ℕ) := [(1366, 768), (412, 915)]

/-- Number of (URL × profile) combinations tried per round. -/
def numCombos : ℕ := URLS.length * profileViewports.length

/-- The inner `for url in URLS: for ua, vp in profiles` loops of one round:
try each combination in order, short-circuit on the first success, and
thread the error of every failure through `lastErr`. -/
def roundAttempt (oracle : ℕ → ℕ → Except String ℚ) (r : ℕ) :
    List ℕ → String → Except String ℚ
  | [], lastErr => .error lastErr
  | i :: rest, lastErr =>
    match oracle r i with
    | .ok v => .ok v
    | .error e => roundAttempt oracle r rest e

/-- The outer `for r in range(1, max_rounds + 1)` loop: on a failed round,
record the `4 * r` second sleep and continue; once rounds are exhausted,
raise with the last observed error. -/
def retryLoop (oracle : ℕ → ℕ → Except String ℚ) :
    List ℕ → String → Except String (ℚ × String) × List ℕ
  | [], lastErr => (.error lastErr, [])
  | r :: rest, lastErr =>
    match roundAttempt oracle r (List.range numCombos) lastErr with
    | .ok v => (.ok (v, "cnbc_playwright"), [])
    | .error e => ((retryLoop oracle rest e).1, 4 * r :: (retryLoop oracle rest e).2)

/-- Embedding of `scrape_cnbc_with_retry` (lines 247-270). -/
def scrape_cnbc_with_retry (oracle : ℕ → ℕ → Except String ℚ) (max_rounds : ℕ) :
    Except String (ℚ × String) × List ℕ :=
  retryLoop oracle ((List.range max_rounds).map (· + 1)) ""

/-! ## Series store (`append_csv`, lines 276-353)

A persisted row is embedded as `SeriesRecord`; `datetime_utc` is epoch
seconds (`none` when the stored cell is empty or unparsable, covering both
the `pd.notna` guard and the swallowed `pd.to_datetime` failure), and
`dxy_index` is `none` when `float(...)` on the stored cell fails. -/

structure SeriesRecord where
  datetime_utc : Option ℤ
  dxy_index : Option ℚ
  source : String
  dxy_change_pct : Option ℚ
deriving DecidableEq, Repr

/-- Sort key used by `df.sort_values("datetime_utc")`: timestamps ascending,
unparsable timestamps (`NaT`) last. -/
def dtLe : Option ℤ → Option ℤ → Bool
  | none, none => true
  | none, some _ => false
  | some _, none => true
  | some a, some b => a ≤ b

/-- The `df.sort_values("datetime_utc")` step (lines 341-346); pandas'
sort is stable, as is `List.mergeSort`. -/
def sortByDatetime (df : List SeriesRecord) : List SeriesRecord :=
  df.mergeSort (fun a b => dtLe a.datetime_utc b.datetime_utc)

/-- The dedup gate (lines 306-313): true when the series is non-empty, its
last timestamp is present and parses, and the absolute gap to `now` is
under 60 seconds. -/
def dedupHit (now : ℤ) (df : List SeriesRecord) : Bool :=
  match df.getLast? with
  | none => false
  | some r =>
    match r.datetime_utc with
    | none => false
    | some d => (now - d).natAbs < 60

/-- The outlier guard (lines 317-325): true when the last row's `dxy_index`
converts to a float `prev` and `|price - prev| > 3.0`; a failed conversion
is swallowed (`except: pass`) and the guard does not fire. -/
def outlierHit (price : ℚ) (df : List SeriesRecord) : Bool :=
  match df.getLast? with
  | none => false
  | some r =>
    match r.dxy_index with
    | none => false
    | some prev => decide (|price - prev| > 3)

/-- The reference for the percent change (lines 327-335): the last row's
`dxy_index` when it converts and is positive, else the baseline `97.324`. -/
def refValue (df : List SeriesRecord) : ℚ :=
  match df.getLast? with
  | none => 97.324
  | some r =>
    match r.dxy_index with
    | none => 97.324
    | some prev => if prev > 0 then prev else 97.324

/-- Embedding of `append_csv` after the load step (lines 306-353), as a
transition on the persisted series: drop the write on the dedup or outlier
gate, else append the new row with its percent change and re-sort. -/
def append_csv (price : ℚ) (source : String) (now : ℤ) (df : List SeriesRecord) :
    List SeriesRecord :=
  if dedupHit now df then df
  else if outlierHit price df then df
  else
    let ref := refValue df
    let pct := round6 ((price - ref) / ref * 100)
    sortByDatetime (df ++ [⟨some now, some price, source, some pct⟩])

/-- Embedding of the `__main__` glue (lines 359-374): on a scrape success
append its price and source, on total scrape failure append the synthetic
estimate under the fallback label.  The estimate itself is real-valued
(`get_dxy_synthetic_from_fx`); `syntheticPrice` stands for the value it
returned. -/
def mainAppend (scrapeOutcome : Except String (ℚ × String)) (syntheticPrice : ℚ)
    (now : ℤ) (df : List SeriesRecord) : List SeriesRecord :=
  match scrapeOutcome with
  | .ok ps => append_csv ps.1 ps.2 now df
  | .error _ => append_csv syntheticPrice "synthetic_fx_fallback" now df

/-! ## The plausibility acceptance test

The code has no single `is_acceptable` function: the hard range `[90, 110]`
is enforced on every candidate inside `scrape_cnbc_once` (lines 223, 231,
238) and the delta-versus-previous rule inside `append_csv` (lines
317-325).  `is_acceptable` is their conjunction, the acceptance test the
pipeline applies to a candidate `v` given the previously persisted value
`p` (`none` when the series is empty or the stored cell does not convert). -/

def hardRangeOK : Option ℚ → Bool
  | none => false
  | some x => decide (90 ≤ x) && decide (x ≤ 110)

def deltaOK (x : ℚ) : Option ℚ → Bool
  | none => true
  | some prev => !decide (|x - prev| > 3)

def is_acceptable (v p : Option ℚ) : Bool :=
  match v with
  | none => false
  | some x => hardRangeOK (some x) && deltaOK x p

/-! ## Theorems -/

/-- C1: the pipeline's plausibility acceptance test accepts a candidate `v`
against an optional previous persisted value `p` exactly when `v` is
present, `90 ≤ v ≤ 110`, and either `p` is absent or `|v - p| ≤ 3`; a
missing or out-of-range candidate is always rejected. -/
theorem C1_is_acceptable_iff (v p : Option ℚ) :
    is_acceptable v p = true ↔
      ∃ x, v = some x ∧ 90 ≤ x ∧ x ≤ 110 ∧
        (p = none ∨ ∃ q, p = some q ∧ |x - q| ≤ 3) := by
  cases v with
  | none => simp [is_acceptable]
  | some x =>
    cases p with
    | none =>
      simp [is_acceptable, hardRangeOK, deltaOK, and_assoc]
    | some q =>
      simp [is_acceptable, hardRangeOK, deltaOK, and_assoc, not_lt]

theorem C1_is_acceptable_iff_witness : is_acceptable (some 100) none = true :=
  (C1_is_acceptable_iff (some 100) none).mpr
    ⟨100, rfl, by norm_num, by norm_num, Or.inl rfl⟩

/-- Helper for C9: a character list without digits has no numeric token. -/
theorem scanToken_of_no_digit (cs : List Char) (h : ∀ c ∈ cs, isDigitC c = false) :
    scanToken cs = none := by
  induction cs with
  | nil => rfl
  | cons c cs ih =>
    have hc : isDigitC c = false := h c (by simp)
    simp only [scanToken, hc, Bool.false_eq_true, if_false]
    exact ih (fun d hd => h d (by simp [hd]))

/-- Helper for C9: every value produced by `selectorScan` is a `round4`. -/
theorem selectorScan_is_round4 (l : List (Option String)) (v : ℚ)
    (h : selectorScan l = some v) : ∃ w, v = round4 w := by
  induction l with
  | nil => simp [selectorScan] at h
  | cons o rest ih =>
    cases o with
    | none => exact ih (by simpa [selectorScan] using h)
    | some txt =>
      rw [selectorScan] at h
      cases hp : parse_float_safe txt with
      | none => rw [hp] at h; exact ih h
      | some w =>
        rw [hp] at h
        dsimp only at h
        by_cases hr : 90 ≤ w ∧ w ≤ 110
        · rw [if_pos hr] at h
          exact ⟨w, (Option.some.injEq _ _ ▸ h).symm⟩
        · rw [if_neg hr] at h; exact ih h

/-- C9: the shared numeric parser strips commas and takes the first decimal
token (`"1,234.5x"` parses to `1234.5`), a digit-free string yields no
value rather than an error, and every value the extraction phase returns
has been rounded to 4 decimal places. -/
theorem C9_parse_float_safe :
    parse_float_safe "1,234.5x" = some 1234.5
    ∧ parse_float_safe "abc" = none
    ∧ (∀ s : String, (∀ c ∈ s.data, isDigitC c = false) → parse_float_safe s = none)
    ∧ (∀ selTexts captured htmlRes x,
        scrape_cnbc_once_extract selTexts captured htmlRes = some x → round4 x = x) := by
  refine ⟨?_, rfl, ?_, ?_⟩
  · have h : scanToken ("1,234.5x".data.filter (fun c => !(c.toNat = 44)))
        = some (1234, 5, 1) := rfl
    rw [parse_float_safe, h]
    norm_num [tokenToRat]
  · intro s hs
    rw [parse_float_safe, scanToken_of_no_digit, Option.map_none']
    intro c hc
    exact hs c (List.mem_of_mem_filter hc)
  · intro selTexts captured htmlRes x h
    rw [scrape_cnbc_once_extract] at h
    cases hsel : selectorScan selTexts with
    | some v =>
      rw [hsel] at h
      obtain ⟨w, hw⟩ := selectorScan_is_round4 selTexts v hsel
      cases h; rw [hw]; exact round4_idem w
    | none =>
      rw [hsel] at h
      cases hcap : capturedScan captured with
      | some v =>
        rw [hcap] at h
        rw [capturedScan] at hcap
        obtain ⟨w, hw1, hw2⟩ := Option.map_eq_some'.mp hcap
        cases h; rw [← hw2]; exact round4_idem w
      | none =>
        rw [hcap] at h
        cases htmlRes with
        | none => simp [htmlGate] at h
        | some w =>
          rw [htmlGate] at h
          by_cases hr : 90 ≤ w ∧ w ≤ 110
          · rw [if_pos hr] at h
            cases h; exact round4_idem w
          · rw [if_neg hr] at h; cases h

theorem C9_parse_float_safe_witness :
    parse_float_safe "xyz" = none ∧ round4 100 = 100 := by
  constructor
  · exact C9_parse_float_safe.2.2.1 "xyz" (by decide)
  · exact C9_parse_float_safe.2.2.2 [] [100] none 100
      (by rw [show scrape_cnbc_once_extract [] [100] none
                = (List.find? (fun v => decide (90 ≤ v) && decide (v ≤ 110))
                    [(100 : ℚ)]).map round4 from rfl]
          rw [List.find?]
          norm_num [round4])

/-- Counterexample to C6: with no selector hit, a captured background
response of `100` and an HTML-context hit of `105`, the code returns the
background-response value, so the context-anchored text search is not
consulted before the background responses; the order the claim asserts
would return `105`. -/
theorem C6_counterexample :
    scrape_cnbc_once_extract [] [100] (some 105) = some 100
    ∧ specOrderedExtract [] [100] (some 105) = some 105
    ∧ (100 : ℚ) ≠ 105 := by
  refine ⟨?_, ?_, by norm_num⟩
  · rw [show scrape_cnbc_once_extract [] [100] (some 105)
        = (List.find? (fun v => decide (90 ≤ v) && decide (v ≤ 110)) [(100 : ℚ)]).map round4
        from rfl]
    rw [List.find?]
    norm_num [round4]
  · rw [show specOrderedExtract [] [100] (some 105) = htmlGate (some 105) from rfl]
    rw [htmlGate]
    norm_num [round4]

/-- C6 (amended): within one fetch attempt the strategies are tried in the
order (1) ranked selector lookup, (2) background-response interception with
the most recently observed in-range candidate preferred, (3)
context-anchored search over the raw HTML, short-circuiting on the first
accepted candidate. -/
theorem C6_strategy_order (selTexts : List (Option String)) (captured : List ℚ)
    (htmlRes : Option ℚ) :
    (∀ v, selectorScan selTexts = some v →
      scrape_cnbc_once_extract selTexts captured htmlRes = some v)
    ∧ (∀ cs v, selectorScan selTexts = none → captured = cs ++ [v] →
        90 ≤ v → v ≤ 110 →
        scrape_cnbc_once_extract selTexts captured htmlRes = some (round4 v))
    ∧ (selectorScan selTexts = none → capturedScan captured = none →
        scrape_cnbc_once_extract selTexts captured htmlRes = htmlGate htmlRes) := by
  refine ⟨?_, ?_, ?_⟩
  · intro v hv
    rw [scrape_cnbc_once_extract, hv]
  · intro cs v hsel hc h90 h110
    have hcap : capturedScan captured = some (round4 v) := by
      rw [capturedScan, hc, List.reverse_append, List.reverse_singleton,
        List.singleton_append, List.find?]
      simp [h90, h110]
    rw [scrape_cnbc_once_extract, hsel, hcap]
  · intro hsel hcap
    rw [scrape_cnbc_once_extract, hsel, hcap]

theorem C6_strategy_order_witness :
    scrape_cnbc_once_extract [] [100] none = some (round4 100) :=
  (C6_strategy_order [] [100] none).2.1 [] 100 rfl rfl (by norm_num) (by norm_num)

/-- Helper for C8: a round in which every combination fails yields the error
of its last combination. -/
theorem roundAttempt_all_fail (oracle : ℕ → ℕ → Except String ℚ) (err : ℕ → ℕ → String)
    (h : ∀ r i, oracle r i = .error (err r i)) (r : ℕ) (lastErr : String) :
    roundAttempt oracle r (List.range numCombos) lastErr = .error (err r 1) := by
  rw [show List.range numCombos = [0, 1] from rfl]
  simp only [roundAttempt, h]

/-- Helper for C8: one failed round unfolds to a `4 * r` sleep plus the rest
of the loop, seeded with the round's last error. -/
theorem retryLoop_cons_fail (oracle : ℕ → ℕ → Except String ℚ) (err : ℕ → ℕ → String)
    (h : ∀ r i, oracle r i = .error (err r i)) (r : ℕ) (rest : List ℕ) (lastErr : String) :
    retryLoop oracle (r :: rest) lastErr
      = ((retryLoop oracle rest (err r 1)).1, 4 * r :: (retryLoop oracle rest (err r 1)).2) := by
  simp only [retryLoop, roundAttempt_all_fail oracle err h]

/-- Helper for C8: if every attempt fails, the loop sleeps `4 * r` after
every round `r` and ends with the last round's last error. -/
theorem retryLoop_all_fail (oracle : ℕ → ℕ → Except String ℚ) (err : ℕ → ℕ → String)
    (h : ∀ r i, oracle r i = .error (err r i)) :
    ∀ (L : List ℕ) (lastErr : String) (hne : L ≠ []),
      retryLoop oracle L lastErr = (.error (err (L.getLast hne) 1), L.map (4 * ·)) := by
  intro L
  induction L with
  | nil => intro lastErr hne; exact absurd rfl hne
  | cons r rest ih =>
    intro lastErr hne
    rw [retryLoop_cons_fail oracle err h r rest lastErr]
    cases rest with
    | nil => rfl
    | cons r2 rest2 =>
      have hne2 : r2 :: rest2 ≠ [] := by simp
      rw [ih (err r 1) hne2]
      simp [List.getLast_cons hne2]

/-- C8: when every attempt of every round fails, the orchestrator sleeps
`4 * r` seconds after each round `r = 1..max_rounds` and then fails,
carrying the error observed at the last combination of the last round. -/
theorem C8_retry_backoff (oracle : ℕ → ℕ → Except String ℚ) (err : ℕ → ℕ → String)
    (h : ∀ r i, oracle r i = .error (err r i)) (max_rounds : ℕ) (hm : 0 < max_rounds) :
    scrape_cnbc_with_retry oracle max_rounds
      = (.error (err max_rounds (numCombos - 1)),
         (List.range max_rounds).map (fun k => 4 * (k + 1))) := by
  have h1 : ((List.range max_rounds).map (· + 1)).getLast? = some max_rounds := by
    obtain ⟨m, rfl⟩ : ∃ m, max_rounds = m + 1 :=
      ⟨max_rounds - 1, (Nat.succ_pred_eq_of_pos hm).symm⟩
    rw [List.range_succ, List.map_append]
    exact List.getLast?_concat _
  have hne : (List.range max_rounds).map (· + 1) ≠ [] := by
    intro hemp
    rw [hemp] at h1
    cases h1
  have h3 : ((List.range max_rounds).map (· + 1)).getLast hne = max_rounds := by
    rw [List.getLast?_eq_getLast _ hne] at h1
    exact (Option.some.injEq _ _).mp h1
  rw [scrape_cnbc_with_retry, retryLoop_all_fail oracle err h _ "" hne, h3]
  rw [show numCombos - 1 = 1 from rfl]
  congr 1
  rw [List.map_map]
  rfl

theorem C8_retry_backoff_witness :
    scrape_cnbc_with_retry (fun _ _ => Except.error "blocked") 4
      = (Except.error "blocked", [4, 8, 12, 16]) := by
  have h := C8_retry_backoff (fun _ _ => Except.error "blocked") (fun _ _ => "blocked")
    (fun _ _ => rfl) 4 (by norm_num)
  exact h.trans (by rfl)

/-- Helper: the sorting step permutes the rows, so membership and length
are preserved. -/
theorem sortByDatetime_perm (df : List SeriesRecord) : (sortByDatetime df).Perm df :=
  List.mergeSort_perm df _

/-- Helper: sorting an already-sorted series is the identity. -/
theorem sortByDatetime_sorted (df : List SeriesRecord)
    (h : df.Pairwise (fun a b => dtLe a.datetime_utc b.datetime_utc = true)) :
    sortByDatetime df = df :=
  List.mergeSort_of_sorted h

theorem sortByDatetime_singleton (r : SeriesRecord) : sortByDatetime [r] = [r] :=
  sortByDatetime_sorted _ (by simp)

/-- Helper: when neither the dedup gate nor the outlier guard fires,
`append_csv` appends the new row with its percent change and re-sorts. -/
theorem append_csv_writes (price : ℚ) (src : String) (now : ℤ) (df : List SeriesRecord)
    (hd : dedupHit now df = false) (ho : outlierHit price df = false) :
    append_csv price src now df
      = sortByDatetime (df ++ [⟨some now, some price, src,
          some (round6 ((price - refValue df) / refValue df * 100))⟩]) := by
  simp only [append_csv, hd, ho, Bool.false_eq_true, if_false]

/-- C3: an append that passes the dedup and outlier gates persists a record
whose `dxy_change_pct` is `(V - ref) / ref * 100` rounded to 6 places,
where `ref` is the last record's `dxy_index` when the series is non-empty
and that value is positive, and the fixed baseline `97.324` otherwise. -/
theorem C3_change_pct (price : ℚ) (src : String) (now : ℤ) (df : List SeriesRecord)
    (ref : ℚ) (hd : dedupHit now df = false) (ho : outlierHit price df = false)
    (href : ref = (match df.getLast? with
      | none => (97.324 : ℚ)
      | some r => match r.dxy_index with
        | none => (97.324 : ℚ)
        | some prev => if prev > 0 then prev else 97.324)) :
    (⟨some now, some price, src, some (round6 ((price - ref) / ref * 100))⟩ : SeriesRecord)
      ∈ append_csv price src now df := by
  have hr : ref = refValue df := by rw [href]; rfl
  rw [append_csv_writes price src now df hd ho, hr]
  exact ((sortByDatetime_perm _).mem_iff).mpr (by simp)

theorem C3_change_pct_witness :
    (⟨some 0, some 100, "cnbc_playwright",
        some (round6 ((100 - 97.324) / 97.324 * 100))⟩ : SeriesRecord)
      ∈ append_csv 100 "cnbc_playwright" 0 [] :=
  C3_change_pct 100 "cnbc_playwright" 0 [] 97.324 rfl rfl rfl

/-- C5: a write that lands while the series is non-empty and within 60
seconds of the last record's timestamp leaves the series unchanged; hence a
successful append followed by a second append inside the window yields
exactly one new record. -/
theorem C5_dedup_window :
    (∀ (price : ℚ) (src : String) (now : ℤ) (df : List SeriesRecord)
        (r : SeriesRecord) (d : ℤ),
        df.getLast? = some r → r.datetime_utc = some d → (now - d).natAbs < 60 →
        append_csv price src now df = df)
    ∧ (∀ (p1 p2 : ℚ) (s1 s2 : String) (t0 t1 : ℤ) (df : List SeriesRecord),
        df.Pairwise (fun a b => dtLe a.datetime_utc b.datetime_utc = true) →
        (∀ r ∈ df, ∃ d, r.datetime_utc = some d ∧ d ≤ t0) →
        dedupHit t0 df = false → outlierHit p1 df = false →
        (t1 - t0).natAbs < 60 →
        (append_csv p2 s2 t1 (append_csv p1 s1 t0 df)).length = df.length + 1) := by
  constructor
  · intro price src now df r d h1 h2 h3
    have hdd : dedupHit now df = true := by simp [dedupHit, h1, h2, h3]
    simp [append_csv, hdd]
  · intro p1 p2 s1 s2 t0 t1 df hsort hall hd ho hlt
    have hsorted2 : (df ++ [(⟨some t0, some p1, s1,
        some (round6 ((p1 - refValue df) / refValue df * 100))⟩ : SeriesRecord)]).Pairwise
          (fun a b => dtLe a.datetime_utc b.datetime_utc = true) := by
      rw [List.pairwise_append]
      refine ⟨hsort, List.pairwise_singleton _ _, ?_⟩
      intro a ha b hb
      rw [List.mem_singleton] at hb
      subst hb
      obtain ⟨d, hd1, hd2⟩ := hall a ha
      rw [hd1]
      simp [dtLe, hd2]
    have hfirst : append_csv p1 s1 t0 df = df ++ [⟨some t0, some p1, s1,
        some (round6 ((p1 - refValue df) / refValue df * 100))⟩] := by
      rw [append_csv_writes p1 s1 t0 df hd ho, sortByDatetime_sorted _ hsorted2]
    have hlast : (df ++ [(⟨some t0, some p1, s1,
        some (round6 ((p1 - refValue df) / refValue df * 100))⟩ : SeriesRecord)]).getLast?
          = some ⟨some t0, some p1, s1,
              some (round6 ((p1 - refValue df) / refValue df * 100))⟩ :=
      List.getLast?_concat _
    have hdd2 : dedupHit t1 (df ++ [(⟨some t0, some p1, s1,
        some (round6 ((p1 - refValue df) / refValue df * 100))⟩ : SeriesRecord)]) = true := by
      simp [dedupHit, hlast, hlt]
    rw [hfirst]
    simp [append_csv, hdd2]

theorem C5_dedup_window_witness :
    append_csv 100 "cnbc_playwright" 30
        [⟨some 0, some 99, "cnbc_playwright", none⟩]
      = [⟨some 0, some 99, "cnbc_playwright", none⟩]
    ∧ (append_csv 101 "cnbc_playwright" 30
        (append_csv 100 "cnbc_playwright" 0 [])).length = 0 + 1 := by
  constructor
  · exact C5_dedup_window.1 100 "cnbc_playwright" 30 _ _ 0 rfl rfl (by decide)
  · exact C5_dedup_window.2 100 101 "cnbc_playwright" "cnbc_playwright" 0 30 []
      List.Pairwise.nil (by simp) rfl rfl (by decide)

/-- C10: when the last record's `dxy_index` does not convert to a float,
the outlier guard is skipped and any new value is accepted, its percent
change computed against the fixed baseline `97.324`. -/
theorem C10_unparsable_prev (price : ℚ) (src : String) (now : ℤ)
    (df : List SeriesRecord) (r : SeriesRecord)
    (h1 : df.getLast? = some r) (h2 : r.dxy_index = none)
    (h3 : dedupHit now df = false) :
    append_csv price src now df
      = sortByDatetime (df ++ [⟨some now, some price, src,
          some (round6 ((price - 97.324) / 97.324 * 100))⟩]) := by
  have ho : outlierHit price df = false := by simp [outlierHit, h1, h2]
  have hr : refValue df = 97.324 := by simp [refValue, h1, h2]
  rw [append_csv_writes price src now df h3 ho, hr]

theorem C10_unparsable_prev_witness :
    append_csv 500 "cnbc_playwright" 100 [⟨some 0, none, "cnbc_playwright", none⟩]
      = sortByDatetime ([⟨some 0, none, "cnbc_playwright", none⟩] ++
          [⟨some 100, some 500, "cnbc_playwright",
            some (round6 ((500 - 97.324) / 97.324 * 100))⟩]) :=
  C10_unparsable_prev 500 "cnbc_playwright" 100 _ _ rfl rfl (by decide)

/-- Counterexample to C2: with an empty series, the run whose scrape failed
persists the synthetic value `150` even though `150` is far outside the
hard range `[90, 110]`: `append_csv` never applies the hard-range check,
so the run does not terminate without writing. -/
theorem C2_counterexample :
    (mainAppend (Except.error "exhausted") 150 0 []).map (fun r => r.dxy_index)
      = [some 150]
    ∧ ¬ ((90 : ℚ) ≤ 150 ∧ (150 : ℚ) ≤ 110) := by
  constructor
  · rw [show mainAppend (Except.error "exhausted") 150 0 []
        = append_csv 150 "synthetic_fx_fallback" 0 [] from rfl]
    rw [append_csv_writes 150 "synthetic_fx_fallback" 0 [] rfl rfl]
    rw [List.nil_append, sortByDatetime_singleton]
    rfl
  · norm_num

/-- C2 (amended): persistence applies no hard-range check.  The only value
gate at write time is the max-delta guard against the last record's
`dxy_index` when that value converts; on an empty series every value —
including an out-of-range synthetic fallback — is persisted. -/
theorem C2_no_range_gate :
    (∀ (price : ℚ) (src : String) (now : ℤ) (df : List SeriesRecord)
        (r : SeriesRecord) (prev : ℚ),
        df.getLast? = some r → r.dxy_index = some prev → |price - prev| > 3 →
        append_csv price src now df = df)
    ∧ (∀ (price : ℚ) (src : String) (now : ℤ),
        (append_csv price src now []).map (fun r => r.dxy_index) = [some price]) := by
  constructor
  · intro price src now df r prev h1 h2 h3
    cases hdd : dedupHit now df with
    | false =>
      have ho : outlierHit price df = true := by simp [outlierHit, h1, h2, h3]
      simp [append_csv, hdd, ho]
    | true => simp [append_csv, hdd]
  · intro price src now
    rw [append_csv_writes price src now [] rfl rfl, List.nil_append, sortByDatetime_singleton]
    rfl

theorem C2_no_range_gate_witness :
    append_csv 150 "synthetic_fx_fallback" 0
        [⟨some (-100), some 100, "cnbc_playwright", none⟩]
      = [⟨some (-100), some 100, "cnbc_playwright", none⟩]
    ∧ (append_csv 150 "synthetic_fx_fallback" 0 []).map (fun r => r.dxy_index)
      = [some 150] := by
  constructor
  · exact C2_no_range_gate.1 150 "synthetic_fx_fallback" 0 _ _ 100 rfl rfl (by norm_num)
  · exact C2_no_range_gate.2 150 "synthetic_fx_fallback" 0

/-- Helper for C4: the missing-rate check holds exactly when one of the six
needed currencies is absent from the mapping or maps to zero. -/
theorem missingRateCheck_iff (rates : String → Option ℚ) :
    missingRateCheck rates = true ↔
      ∃ c ∈ neededCurrencies, rates c = none ∨ rates c = some 0 := by
  simp [missingRateCheck, List.any_eq_true, Option.isNone_iff_eq_none]

/-- C4: the synthetic estimator fails exactly when one of the six required
USD rates is absent or zero; otherwise it returns the fixed-weight product
`50.14348112 * (1/EUR)^(-0.576) * JPY^0.136 * (1/GBP)^(-0.119) * CAD^0.091
* SEK^0.042 * CHF^0.036`, rounded to 4 decimal places — deterministically,
being a function of the rates alone. -/
theorem C4_synthetic (rates : String → Option ℚ) :
    ((∃ e, get_dxy_synthetic_from_fx rates = .error e) ↔
      ∃ c ∈ neededCurrencies, rates c = none ∨ rates c = some 0)
    ∧ (∀ e j g c s ch : ℚ,
        rates "EUR" = some e → rates "JPY" = some j → rates "GBP" = some g →
        rates "CAD" = some c → rates "SEK" = some s → rates "CHF" = some ch →
        e ≠ 0 → j ≠ 0 → g ≠ 0 → c ≠ 0 → s ≠ 0 → ch ≠ 0 →
        get_dxy_synthetic_from_fx rates
          = .ok (round4R ((50.14348112 : ℝ)
              * (1 / (e : ℝ)) ^ (-0.576 : ℝ)
              * (j : ℝ) ^ (0.136 : ℝ)
              * (1 / (g : ℝ)) ^ (-0.119 : ℝ)
              * (c : ℝ) ^ (0.091 : ℝ)
              * (s : ℝ) ^ (0.042 : ℝ)
              * (ch : ℝ) ^ (0.036 : ℝ)))) := by
  constructor
  · constructor
    · rintro ⟨e, he⟩
      by_cases hm : missingRateCheck rates = true
      · exact (missingRateCheck_iff rates).mp hm
      · rw [get_dxy_synthetic_from_fx, if_neg hm] at he
        cases he
    · intro hex
      have hm := (missingRateCheck_iff rates).mpr hex
      rw [get_dxy_synthetic_from_fx, if_pos hm]
      exact ⟨_, rfl⟩
  · intro e j g c s ch hE hJ hG hC hS hCh he hj hg hc hs hch
    have hm : missingRateCheck rates = false := by
      simp [missingRateCheck, neededCurrencies, hE, hJ, hG, hC, hS, hCh,
        he, hj, hg, hc, hs, hch]
    rw [get_dxy_synthetic_from_fx, if_neg (by rw [hm]; exact Bool.false_ne_true)]
    rw [hE, hJ, hG, hC, hS, hCh]
    rfl

theorem C4_synthetic_witness :
    get_dxy_synthetic_from_fx (fun _ => some 1)
      = .ok (round4R ((50.14348112 : ℝ)
          * (1 / ((1 : ℚ) : ℝ)) ^ (-0.576 : ℝ)
          * ((1 : ℚ) : ℝ) ^ (0.136 : ℝ)
          * (1 / ((1 : ℚ) : ℝ)) ^ (-0.119 : ℝ)
          * ((1 : ℚ) : ℝ) ^ (0.091 : ℝ)
          * ((1 : ℚ) : ℝ) ^ (0.042 : ℝ)
          * ((1 : ℚ) : ℝ) ^ (0.036 : ℝ)))
    ∧ (∃ e, get_dxy_synthetic_from_fx (fun _ => none) = .error e) := by
  constructor
  · exact (C4_synthetic (fun _ => some 1)).2 1 1 1 1 1 1 rfl rfl rfl rfl rfl rfl
      (by norm_num) (by norm_num) (by norm_num) (by norm_num) (by norm_num) (by norm_num)
  · exact (C4_synthetic (fun _ => none)).1.mpr ⟨"EUR", by simp [neededCurrencies], Or.inl rfl⟩

/-! ## Safe load of the series file (`append_csv`, lines 287-304)

The tabular I/O layer (pandas) is an external collaborator: a data frame is
embedded as named columns of optional cells, and the outcome of
`pd.read_csv` is part of the file's state (`Except.error` modelling a parse
exception).  `loadSeries` is the read-safely-and-normalise prefix of
`append_csv`: missing file, zero-size file, or failed parse all yield the
empty frame, and the expected columns are then added when absent
(`df[c] = None` broadcasts `None` over the frame's rows) and selected in
canonical order (`df = df[columns]`). -/

structure Frame where
  cols : List (String × List (Option String))
deriving DecidableEq, Repr

def CSV_COLUMNS : List String := ["datetime_utc", "dxy_index", "source", "dxy_change_pct"]

/-- Frame built by `pd.DataFrame(columns=columns)`: the expected columns, no rows. -/
def emptyFrame : Frame := ⟨CSV_COLUMNS.map (fun c => (c, []))⟩

/-- Row count `len(df)`. -/
def frameRows (f : Frame) : ℕ :=
  match f.cols with
  | [] => 0
  | p :: _ => p.2.length

/-- Membership test `c in df.columns`. -/
def hasCol (f : Frame) (c : String) : Bool := f.cols.any (fun p => p.1 = c)

/-- Read column `c`, `none` when absent. -/
def getCol (f : Frame) (c : String) : Option (List (Option String)) :=
  (f.cols.find? (fun p => p.1 = c)).map (fun p => p.2)

/-- One iteration of `for c in columns: if c not in df.columns: df[c] = None`. -/
def addColStep (m : ℕ) (acc : Frame) (c : String) : Frame :=
  if hasCol acc c then acc else ⟨acc.cols ++ [(c, List.replicate m none)]⟩

def addMissingCols (f : Frame) : Frame := CSV_COLUMNS.foldl (addColStep (frameRows f)) f

/-- Column selection `df = df[columns]`. -/
def selectCols (f : Frame) : Frame :=
  ⟨CSV_COLUMNS.map (fun c => (c, (getCol f c).getD []))⟩

def normalizeFrame (f : Frame) : Frame := selectCols (addMissingCols f)

/-- State of the series file: absent, or present with a size and a parse
outcome for its contents. -/
inductive FileState where
  | missing : FileState
  | present : ℕ → Except String Frame → FileState

/-- Embedding of the read-safely step of `append_csv` (lines 287-304). -/
def loadSeries : FileState → Frame
  | .missing => normalizeFrame emptyFrame
  | .present size parsed =>
    normalizeFrame (if size = 0 then emptyFrame
      else match parsed with
        | .error _ => emptyFrame
        | .ok df => df)

/-- Helper for C7: a column known to `getCol` survives further
column-adding steps. -/
theorem getCol_foldl_preserved (m : ℕ) (c : String) (v : List (Option String)) :
    ∀ (L : List String) (acc : Frame), getCol acc c = some v →
      getCol (L.foldl (addColStep m) acc) c = some v := by
  intro L
  induction L with
  | nil => intro acc h; exact h
  | cons d L ih =>
    intro acc h
    rw [List.foldl_cons]
    refine ih (addColStep m acc d) ?_
    rw [addColStep]
    by_cases hdc : hasCol acc d = true
    · rw [if_pos hdc]; exact h
    · rw [if_neg hdc]
      obtain ⟨p, hp, hpv⟩ := Option.map_eq_some'.mp h
      rw [getCol, List.find?_append, hp]
      exact Option.map_eq_some'.mpr ⟨p, rfl, hpv⟩

/-- Helper for C7: a column absent from the frame and listed in the loop is
added with `m` empty cells. -/
theorem getCol_foldl_added (m : ℕ) (c : String) :
    ∀ (L : List String) (acc : Frame), c ∈ L → hasCol acc c = false →
      getCol (L.foldl (addColStep m) acc) c = some (List.replicate m none) := by
  intro L
  induction L with
  | nil => intro acc hc; exact absurd hc (List.not_mem_nil c)
  | cons d L ih =>
    intro acc hc hmiss
    rw [List.foldl_cons]
    by_cases hdc : d = c
    · subst hdc
      have hstep : addColStep m acc d = ⟨acc.cols ++ [(d, List.replicate m none)]⟩ := by
        rw [addColStep, if_neg (by rw [hmiss]; exact Bool.false_ne_true)]
      have hnone : acc.cols.find? (fun p => p.1 = d) = none := by
        rw [List.find?_eq_none]
        intro p hp
        have h2 : ∀ a b, (a, b) ∈ acc.cols → ¬ a = d := by simpa [hasCol] using hmiss
        simpa using h2 p.1 p.2 hp
      have hget : getCol (addColStep m acc d) d = some (List.replicate m none) := by
        rw [hstep, getCol, List.find?_append, hnone, Option.none_or]
        simp [List.find?]
      exact getCol_foldl_preserved m d _ L _ hget
    · rcases List.mem_cons.mp hc with h | h
      · exact absurd h.symm hdc
      · refine ih (addColStep m acc d) h ?_
        rw [addColStep]
        by_cases hd2 : hasCol acc d = true
        · rw [if_pos hd2]; exact hmiss
        · rw [if_neg hd2]
          rw [hasCol, List.any_append]
          rw [hasCol] at hmiss
          rw [hmiss]
          simpa using hdc

/-- Helper for C7: after `df = df[columns]`, reading an expected column
gives whatever the normalised frame held for it (empty when truly absent). -/
theorem getCol_selectCols (g : Frame) (c : String) (hc : c ∈ CSV_COLUMNS) :
    getCol (selectCols g) c = some ((getCol g c).getD []) := by
  have hc4 : c = "datetime_utc" ∨ c = "dxy_index" ∨ c = "source" ∨ c = "dxy_change_pct" := by
    simpa [CSV_COLUMNS] using hc
  rcases hc4 with h | h | h | h <;>
    (subst h; simp [selectCols, getCol, CSV_COLUMNS, List.find?])

/-- C7: loading from a missing, zero-length, or unparsable file yields the
empty series — the load is total, so no parse error ever propagates — and
an expected column absent from a parsed file is added with one empty cell
per row. -/
theorem C7_safe_load :
    loadSeries .missing = emptyFrame
    ∧ (∀ p, loadSeries (.present 0 p) = emptyFrame)
    ∧ (∀ n e, loadSeries (.present n (.error e)) = emptyFrame)
    ∧ (∀ n df c, n ≠ 0 → c ∈ CSV_COLUMNS → hasCol df c = false →
        getCol (loadSeries (.present n (.ok df))) c
          = some (List.replicate (frameRows df) none)) := by
  have hempty : normalizeFrame emptyFrame = emptyFrame := by rfl
  refine ⟨hempty, fun p => hempty, fun n e => ?_, ?_⟩
  · rw [loadSeries]
    by_cases hn : n = 0
    · rw [if_pos hn]; exact hempty
    · rw [if_neg hn]; exact hempty
  · intro n df c hn hc hmiss
    rw [loadSeries, if_neg hn]
    rw [normalizeFrame, getCol_selectCols _ c hc]
    rw [addMissingCols, getCol_foldl_added (frameRows df) c CSV_COLUMNS df hc hmiss]
    rfl

theorem C7_safe_load_witness :
    loadSeries (.present 0 (.error "ParserError")) = emptyFrame
    ∧ getCol (loadSeries (.present 37 (.ok ⟨[("source", [some "cnbc_playwright"])]⟩)))
        "dxy_index" = some (List.replicate 1 none) := by
  constructor
  · exact C7_safe_load.2.1 (.error "ParserError")
  · exact C7_safe_load.2.2.2 37 ⟨[("source", [some "cnbc_playwright"])]⟩ "dxy_index"
      (by norm_num) (by simp [CSV_COLUMNS]) (by rfl)
